import Mathlib

/-!
Shallow embedding of the stage-3 location pipeline of `Task-3/script.py`:
location extraction (`extract_locations`), per-post processing
(`process_posts`), flattening and stop-list filtering (`filter_locations`),
the caching/retrying geocode resolver (`get_coordinates`) and the heatmap
aggregator (`get_location_coordinates`).

External collaborators (the spaCy recognizer and the Nominatim geocoder) are
modelled as injected functions; the geocoder additionally carries a
call-counter index so that mocks with per-call behaviour, call counting and
backoff accounting are expressible.  Latitude/longitude values are carried as
exact rationals: the program never computes with them, it only passes them
through.
-/

set_option autoImplicit false

/-- A named-entity span returned by the recognizer collaborator:
`ent.text` and `ent.label_` in the Python code. -/
structure Entity where
  text : String
  label : String
deriving DecidableEq, Repr

/-- Python `str.lower()`, character-wise (the inputs of interest are
ASCII, where this agrees with Python). -/
def pyLower (s : String) : String := String.mk (s.toList.map Char.toLower)

/-- Helper for `pyWords`: scan the characters, accumulating the current
token in reverse; whitespace ends a token, empty pieces are dropped. -/
def splitWsAux : List Char → List Char → List String
  | [], cur => if cur.isEmpty then [] else [String.mk cur.reverse]
  | c :: rest, cur =>
      if c.isWhitespace then
        if cur.isEmpty then splitWsAux rest []
        else String.mk cur.reverse :: splitWsAux rest []
      else splitWsAux rest (c :: cur)

/-- Python `text.split()`: split on whitespace runs, no empty pieces. -/
def pyWords (text : String) : List String := splitWsAux text.toList []

/-- The dict comprehension
`\x7bkey.lower(): val for key, val in abbreviation_mapping.items()\x7d`:
keys lowercased; on a key collision the later binding wins. -/
def lowerAbbrev (m : List (String × String)) : List (String × String) :=
  m.map (fun kv => (pyLower kv.1, kv.2))

/-- Lookup in a dict built by iterated assignment over an association list:
the value of the LAST pair carrying the key (later assignments overwrite). -/
def dictLookupS (m : List (String × String)) (k : String) : Option String :=
  (m.reverse.find? (fun kv => kv.1 == k)).map (fun kv => kv.2)

/-- Python `set.add` on a set represented as a duplicate-free list in
insertion order: inserting an element already present is a no-op. -/
def setInsert (s : List String) (x : String) : List String :=
  if x ∈ s then s else s ++ [x]

/-- One iteration of the abbreviation loop in `extract_locations`: look the
lowercased word up in the lowercased abbreviation table and add the canonical
expansion to the location set on a hit. -/
def abbrevStep (lm : List (String × String)) (s : List String) (word : String) :
    List String :=
  match dictLookupS lm (pyLower word) with
  | some v => setInsert s v
  | none => s

/-- `extract_locations(text, nlp, abbreviation_mapping)`: collect the texts of
entities labelled `GPE` into a set, then add the canonical expansion of every
whitespace token that matches the abbreviation table case-insensitively; if
the resulting set is empty return the sentinel `["no location found"]`. -/
def extract_locations (nlp : String → List Entity) (text : String)
    (abbreviation_mapping : List (String × String)) : List String :=
  let lower_abbreviation_mapping := lowerAbbrev abbreviation_mapping
  let gpe := ((nlp text).filter (fun e => e.label == "GPE")).map (fun e => e.text)
  let locations := gpe.foldl setInsert []
  let locations2 := (pyWords text).foldl (abbrevStep lower_abbreviation_mapping) locations
  if locations2.isEmpty then ["no location found"] else locations2

/-- The abbreviation table hard-coded in `process_posts`. -/
def abbreviation_mapping : List (String × String) :=
  [("NYC", "New York City"),
   ("LA", "Los Angeles"),
   ("SF", "San Francisco"),
   ("UK", "United Kingdom"),
   ("USA", "United States"),
   ("US", "United States"),
   ("UAE", "United Arab Emirates"),
   ("TX", "Texas"),
   ("CA", "California"),
   ("DC", "Washington, D.C.")]

/-- A JSON-ish field value of a post record. -/
inductive PVal where
  | str : String → PVal
  | strList : List String → PVal
  | int : Int → PVal
deriving DecidableEq, Repr

/-- A post record: a Python dict modelled as an association list read by
first match. -/
abbrev Post := List (String × PVal)

/-- Python dict read `post[k]` (as an `Option`): the first binding of `k`. -/
def dictGet (p : Post) (k : String) : Option PVal :=
  (p.find? (fun kv => kv.1 == k)).map (fun kv => kv.2)

/-- Python dict assignment `post[k] = v`: overwrite the binding of `k` in
place, or append it at the end when `k` is absent. -/
def dictSet : Post → String → PVal → Post
  | [], k, v => [(k, v)]
  | kv :: rest, k, v =>
      if kv.1 == k then (k, v) :: rest else kv :: dictSet rest k v

/-- The body of the `process_posts` loop for one post: read
`post["content"]`, extract locations, and set `post["location"]`.  A missing
or non-string `content` field raises in Python, hence `none` here. -/
def process_one (nlp : String → List Entity) (post : Post) :
    Option (Post × List String) :=
  match dictGet post "content" with
  | some (PVal.str text) =>
      let locations := extract_locations nlp text abbreviation_mapping
      some (dictSet post "location" (PVal.strList locations), locations)
  | _ => none

/-- `process_posts(posts)`: process each post in order, attaching the
extracted location list as the `location` field and collecting all location
lists; the recognizer is the injected collaborator. -/
def process_posts (nlp : String → List Entity) :
    List Post → Option (List Post × List (List String))
  | [] => some ([], [])
  | post :: rest =>
      match process_one nlp post with
      | none => none
      | some (p2, locs) =>
          match process_posts nlp rest with
          | none => none
          | some (ps, ls) => some (p2 :: ps, locs :: ls)

/-- The stop-list `unwanted_words` of `filter_locations`. -/
def unwanted_words : List String :=
  ["no location found", "meth", "kinda", "example", "country",
   "place", "world", "earth", "everywhere", "phobia", "mcas"]

/-- One step of `collections.Counter`: increment the count of `x`, first
occurrence inserting the key at the end. -/
def counterAdd : List (String × Nat) → String → List (String × Nat)
  | [], x => [(x, 1)]
  | kv :: rest, x =>
      if kv.1 == x then (kv.1, kv.2 + 1) :: rest else kv :: counterAdd rest x

/-- `collections.Counter(xs)` as an association list in first-occurrence
order. -/
def counterOf (xs : List String) : List (String × Nat) :=
  xs.foldl counterAdd []

/-- `Counter` read access: the count of `k`, `0` when absent. -/
def counterGet (c : List (String × Nat)) (k : String) : Nat :=
  match c.find? (fun kv => kv.1 == k) with
  | some kv => kv.2
  | none => 0

/-- `filter_locations(all_locations)`: flatten the per-post location lists,
drop entries whose lowercase form is in the stop-list (exact match), and
count the survivors. -/
def filter_locations (all_locations : List (List String)) : List (String × Nat) :=
  let flat_locations := all_locations.flatten
  let filtered_locations :=
    flat_locations.filter (fun loc => !(unwanted_words.contains (pyLower loc)))
  counterOf filtered_locations

/-- Outcome of one call to the geocoding collaborator:
a truthy result with coordinates, a falsy (`None`) result,
a `GeocoderTimedOut` exception, or any other exception. -/
inductive GeoResult where
  | found : Rat → Rat → GeoResult
  | notFound : GeoResult
  | timeout : GeoResult
  | error : GeoResult
deriving DecidableEq, Repr

/-- The observable state threaded through the resolver: the
`location_cache` dict, the number of `geolocator.geocode` calls made so far,
and the total time spent in `time.sleep`. -/
structure GeoState where
  cache : List (String × (Rat × Rat))
  calls : Nat
  slept : Nat
deriving DecidableEq, Repr

/-- `location in location_cache` / `location_cache[location]`. -/
def cacheLookup (c : List (String × (Rat × Rat))) (k : String) :
    Option (Rat × Rat) :=
  (c.find? (fun kv => kv.1 == k)).map (fun kv => kv.2)

/-- `location_cache[location] = coords`. -/
def cacheStore : List (String × (Rat × Rat)) → String → (Rat × Rat) →
    List (String × (Rat × Rat))
  | [], k, v => [(k, v)]
  | kv :: rest, k, v =>
      if kv.1 == k then (k, v) :: rest else kv :: cacheStore rest k v

/-- The `for _ in range(3)` retry loop of `get_coordinates`, with the fuel as
explicit argument.  Each iteration makes one geocoder call (indexed by the
running call counter): a truthy result is cached and returned; a falsy result
just continues; a timeout sleeps 2 and continues; any other exception returns
`None` at once without caching. -/
def geocodeAttempts (geocode : Nat → GeoResult) (location : String) :
    Nat → GeoState → Option (Rat × Rat) × GeoState
  | 0, st => (none, st)
  | n + 1, st =>
      match geocode st.calls with
      | GeoResult.found lat lon =>
          (some (lat, lon),
           { st with calls := st.calls + 1,
                     cache := cacheStore st.cache location (lat, lon) })
      | GeoResult.notFound =>
          geocodeAttempts geocode location n { st with calls := st.calls + 1 }
      | GeoResult.timeout =>
          geocodeAttempts geocode location n
            { st with calls := st.calls + 1, slept := st.slept + 2 }
      | GeoResult.error => (none, { st with calls := st.calls + 1 })

/-- `get_coordinates(geolocator, location, location_cache)`: return the
cached coordinates on a cache hit, otherwise run up to 3 lookup attempts. -/
def get_coordinates (geocode : Nat → GeoResult) (location : String)
    (st : GeoState) : Option (Rat × Rat) × GeoState :=
  match cacheLookup st.cache location with
  | some coords => (some coords, st)
  | none => geocodeAttempts geocode location 3 st

/-- The body of the `get_location_coordinates` loop for one
`(location, count)` pair: resolve, append `(*coords, count)` on success, and
sleep 2 before the next name either way. -/
def glcStep (geocode : Nat → GeoResult)
    (acc : List (Rat × Rat × Nat) × GeoState) (lc : String × Nat) :
    List (Rat × Rat × Nat) × GeoState :=
  let r := get_coordinates geocode lc.1 acc.2
  match r.1 with
  | some coords =>
      (acc.1 ++ [(coords.1, coords.2, lc.2)], { r.2 with slept := r.2.slept + 2 })
  | none => (acc.1, { r.2 with slept := r.2.slept + 2 })

/-- `get_location_coordinates(user_agent, location_counts)`: a fresh empty
cache, then the loop over the frequency table in order. -/
def get_location_coordinates (geocode : Nat → GeoResult)
    (location_counts : List (String × Nat)) :
    List (Rat × Rat × Nat) × GeoState :=
  location_counts.foldl (glcStep geocode) ([], ⟨[], 0, 0⟩)

/-- The spec's §4.4 aggregator contract, transcribed from its words as a
second definition to compare with `get_location_coordinates`: "for each
(name, count) pair in frequency order, calls the Resolver; on success
appends `(lat, lon, count)`; on failure (`none`), the pair contributes no
point and is silently dropped".  One output triple is consed per resolved
pair, none per unresolved pair, with the resolver state (cache, call
counter, sleep accounting, including the per-name rate-limit sleep) threaded
through pair by pair. -/
def aggregateSpec (geocode : Nat → GeoResult) (st : GeoState) :
    List (String × Nat) → List (Rat × Rat × Nat)
  | [] => []
  | lc :: rest =>
      let r := get_coordinates geocode lc.1 st
      let st2 : GeoState := { r.2 with slept := r.2.slept + 2 }
      match r.1 with
      | some coords => (coords.1, coords.2, lc.2) :: aggregateSpec geocode st2 rest
      | none => aggregateSpec geocode st2 rest

/-- A mock recognizer for concrete scenarios: it reports the single
geo-political entity "New York City" for any text. -/
def exNlp : String → List Entity :=
  fun _ => [⟨"New York City", "GPE"⟩]

/-- A concrete post text whose NER pass and whose abbreviation pass both
yield the canonical name "New York City". -/
def exText : String := "alone in NYC"

/-- A mock recognizer that finds no entities at all. -/
def emptyNlp : String → List Entity := fun _ => []

/-- A concrete one-field-plus-content post for the frame-property witness. -/
def exPost : Post := [("id", PVal.int 1), ("content", PVal.str "hello")]

/-- The processed form of `exPost`: unchanged fields plus the attached
`location` field. -/
def exPost2 : Post :=
  [("id", PVal.int 1), ("content", PVal.str "hello"),
   ("location", PVal.strList ["no location found"])]

theorem cacheLookup_store_self (c : List (String × (Rat × Rat))) (k : String)
    (v : Rat × Rat) : cacheLookup (cacheStore c k v) k = some v := by
  induction c with
  | nil => simp [cacheStore, cacheLookup, List.find?]
  | cons hd tl ih =>
      by_cases h : hd.1 == k
      · simp [cacheStore, h, cacheLookup, List.find?]
      · simpa [cacheStore, h, cacheLookup, List.find?] using ih

theorem geocodeAttempts_some_cached (g : Nat → GeoResult) (loc : String) :
    ∀ (n : Nat) (st st1 : GeoState) (c : Rat × Rat),
      geocodeAttempts g loc n st = (some c, st1) →
      cacheLookup st1.cache loc = some c := by
  intro n
  induction n with
  | zero =>
      intro st st1 c h
      simp [geocodeAttempts] at h
  | succ n ih =>
      intro st st1 c h
      simp only [geocodeAttempts] at h
      cases hg : g st.calls <;> rw [hg] at h
      case found lat lon =>
        rw [Prod.mk.injEq] at h
        obtain ⟨h1, h2⟩ := h
        injection h1 with h1
        subst h1 h2
        exact cacheLookup_store_self st.cache loc (lat, lon)
      case notFound => exact ih _ _ _ h
      case timeout => exact ih _ _ _ h
      case error =>
        rw [Prod.mk.injEq] at h
        exact absurd h.1 (by simp)

theorem geocodeAttempts_calls_mono (g : Nat → GeoResult) (loc : String) :
    ∀ (n : Nat) (st : GeoState),
      st.calls ≤ (geocodeAttempts g loc n st).2.calls := by
  intro n
  induction n with
  | zero => intro st; simp [geocodeAttempts]
  | succ n ih =>
      intro st
      simp only [geocodeAttempts]
      cases hg : g st.calls
      case found lat lon => exact Nat.le_succ _
      case notFound =>
        exact Nat.le_trans (Nat.le_succ _) (ih { st with calls := st.calls + 1 })
      case timeout =>
        exact Nat.le_trans (Nat.le_succ _)
          (ih { st with calls := st.calls + 1, slept := st.slept + 2 })
      case error => exact Nat.le_succ _

theorem geocodeAttempts_calls_succ (g : Nat → GeoResult) (loc : String)
    (n : Nat) (st : GeoState) :
    st.calls + 1 ≤ (geocodeAttempts g loc (n + 1) st).2.calls := by
  simp only [geocodeAttempts]
  cases hg : g st.calls
  case found lat lon => exact Nat.le_refl _
  case notFound => exact geocodeAttempts_calls_mono g loc n { st with calls := st.calls + 1 }
  case timeout =>
    exact geocodeAttempts_calls_mono g loc n
      { st with calls := st.calls + 1, slept := st.slept + 2 }
  case error => exact Nat.le_refl _

theorem geocodeAttempts_timeout_all (g : Nat → GeoResult) (loc : String)
    (st : GeoState) (hg : ∀ n, g n = GeoResult.timeout) :
    geocodeAttempts g loc 3 st = (none, ⟨st.cache, st.calls + 3, st.slept + 6⟩) := by
  simp only [geocodeAttempts, hg]

theorem geocodeAttempts_notFound_all (g : Nat → GeoResult) (loc : String)
    (st : GeoState) (hg : ∀ n, g n = GeoResult.notFound) :
    geocodeAttempts g loc 3 st = (none, ⟨st.cache, st.calls + 3, st.slept⟩) := by
  simp only [geocodeAttempts, hg]

theorem get_coordinates_some_cached (g : Nat → GeoResult) (loc : String)
    (st st1 : GeoState) (c : Rat × Rat)
    (h : get_coordinates g loc st = (some c, st1)) :
    cacheLookup st1.cache loc = some c := by
  unfold get_coordinates at h
  cases hc : cacheLookup st.cache loc with
  | some c0 =>
      rw [hc] at h
      rw [Prod.mk.injEq] at h
      obtain ⟨h1, h2⟩ := h
      injection h1 with h1
      subst h1 h2
      exact hc
  | none =>
      rw [hc] at h
      exact geocodeAttempts_some_cached g loc 3 st st1 c h

/-- Claim C1: cache idempotence of the resolver — when a call to
`get_coordinates` has stored an outcome for `loc` in the cache (it returned
`some c` with final state `st1`), a second call for `loc`, with ANY geocoding
collaborator, returns the same outcome and leaves the state (in particular
the call counter) untouched: zero external lookups, the cached result is
returned before the attempt loop is entered. -/
theorem resolver_cache_idempotent (g g2 : Nat → GeoResult) (loc : String)
    (st st1 : GeoState) (c : Rat × Rat)
    (h : get_coordinates g loc st = (some c, st1)) :
    get_coordinates g2 loc st1 = (some c, st1) := by
  have hc := get_coordinates_some_cached g loc st st1 c h
  unfold get_coordinates
  rw [hc]

/-- Witness for C1: a first call resolves "Texas" and caches it; the second
call (with a collaborator that would fail) returns the cached coordinates
with an unchanged state. -/
theorem resolver_cache_idempotent_witness :
    get_coordinates (fun _ => GeoResult.error) "Texas"
        ⟨[("Texas", (31, -100))], 1, 0⟩
      = (some (31, -100), ⟨[("Texas", (31, -100))], 1, 0⟩) :=
  resolver_cache_idempotent (fun _ => GeoResult.found 31 (-100))
    (fun _ => GeoResult.error) "Texas" ⟨[], 0, 0⟩ _ _ (by decide)

/-- Claim C2: retry bound on timeouts — with a collaborator that times out
on every call and a cache miss, `get_coordinates` makes exactly 3 lookup
attempts, sleeps the fixed 2-unit backoff after each timeout (6 in total),
returns `none`, and stores nothing in the cache. -/
theorem resolver_retry_bound (g : Nat → GeoResult) (loc : String)
    (st : GeoState) (hg : ∀ n, g n = GeoResult.timeout)
    (hc : cacheLookup st.cache loc = none) :
    get_coordinates g loc st = (none, ⟨st.cache, st.calls + 3, st.slept + 6⟩) := by
  unfold get_coordinates
  rw [hc]
  exact geocodeAttempts_timeout_all g loc st hg

/-- Witness for C2: an always-timeout collaborator on an empty cache makes
3 calls, sleeps 6, returns `none` and caches nothing. -/
theorem resolver_retry_bound_witness :
    get_coordinates (fun _ => GeoResult.timeout) "Atlantis" ⟨[], 0, 0⟩
      = (none, ⟨[], 3, 6⟩) :=
  resolver_retry_bound (fun _ => GeoResult.timeout) "Atlantis" ⟨[], 0, 0⟩
    (fun _ => rfl) (by decide)

/-- Claim C3: a non-timeout failure aborts without caching — on a cache miss
whose first attempt raises a non-timeout error, `get_coordinates` returns
`none` after exactly one call, with no backoff sleep and the cache unchanged;
consequently a subsequent call for the same name (any collaborator) re-enters
the attempt loop and performs at least one fresh lookup. -/
theorem resolver_error_aborts (g : Nat → GeoResult) (loc : String)
    (st : GeoState) (hc : cacheLookup st.cache loc = none)
    (he : g st.calls = GeoResult.error) :
    get_coordinates g loc st = (none, ⟨st.cache, st.calls + 1, st.slept⟩) ∧
    ∀ g2 : Nat → GeoResult,
      st.calls + 2 ≤ (get_coordinates g2 loc ⟨st.cache, st.calls + 1, st.slept⟩).2.calls := by
  constructor
  · unfold get_coordinates
    rw [hc]
    simp only [geocodeAttempts, he]
  · intro g2
    unfold get_coordinates
    have hc2 : cacheLookup (⟨st.cache, st.calls + 1, st.slept⟩ : GeoState).cache loc = none := hc
    rw [hc2]
    exact geocodeAttempts_calls_succ g2 loc 2 ⟨st.cache, st.calls + 1, st.slept⟩

/-- Witness for C3: an always-error collaborator on an empty cache returns
`none` after one call without caching, and the follow-up call for the same
name makes a fresh lookup. -/
theorem resolver_error_aborts_witness :
    get_coordinates (fun _ => GeoResult.error) "Texas" ⟨[], 0, 0⟩
        = (none, ⟨[], 1, 0⟩) ∧
    2 ≤ (get_coordinates (fun _ => GeoResult.error) "Texas" ⟨[], 1, 0⟩).2.calls := by
  have h := resolver_error_aborts (fun _ => GeoResult.error) "Texas" ⟨[], 0, 0⟩
    (by decide) rfl
  exact ⟨h.1, h.2 (fun _ => GeoResult.error)⟩

/-- Claim C9: an empty (no-result) response that raises nothing is a fourth
outcome — on a cache miss with a collaborator that always returns a falsy
result, `get_coordinates` neither aborts nor caches: it re-attempts up to 3
total calls with no backoff sleep between them and returns `none`. -/
theorem resolver_noresult_retries (g : Nat → GeoResult) (loc : String)
    (st : GeoState) (hg : ∀ n, g n = GeoResult.notFound)
    (hc : cacheLookup st.cache loc = none) :
    get_coordinates g loc st = (none, ⟨st.cache, st.calls + 3, st.slept⟩) := by
  unfold get_coordinates
  rw [hc]
  exact geocodeAttempts_notFound_all g loc st hg

/-- Witness for C9: an always-empty-response collaborator on an empty cache
makes 3 calls, never sleeps, returns `none` and caches nothing. -/
theorem resolver_noresult_retries_witness :
    get_coordinates (fun _ => GeoResult.notFound) "Atlantis" ⟨[], 0, 0⟩
      = (none, ⟨[], 3, 0⟩) :=
  resolver_noresult_retries (fun _ => GeoResult.notFound) "Atlantis" ⟨[], 0, 0⟩
    (fun _ => rfl) (by decide)

theorem abbrevStep_no_match (lm : List (String × String)) (s : List String)
    (w : String) (h : dictLookupS lm (pyLower w) = none) :
    abbrevStep lm s w = s := by
  simp [abbrevStep, h]

theorem abbrevFold_no_match (lm : List (String × String)) (ws : List String)
    (s : List String) (h : ∀ w ∈ ws, dictLookupS lm (pyLower w) = none) :
    ws.foldl (abbrevStep lm) s = s := by
  induction ws generalizing s with
  | nil => rfl
  | cons w ws ih =>
      rw [List.foldl_cons, abbrevStep_no_match lm s w (h w (by simp))]
      exact ih s (fun w2 hw2 => h w2 (by simp [hw2]))

theorem mem_setInsert_self (s : List String) (x : String) : x ∈ setInsert s x := by
  unfold setInsert
  split
  · assumption
  · simp

theorem mem_setInsert_of_mem (s : List String) (x y : String) (h : y ∈ s) :
    y ∈ setInsert s x := by
  unfold setInsert
  split
  · exact h
  · simp [h]

theorem abbrevStep_mem (lm : List (String × String)) (s : List String)
    (w x : String) (h : x ∈ s) : x ∈ abbrevStep lm s w := by
  unfold abbrevStep
  split
  · exact mem_setInsert_of_mem _ _ _ h
  · exact h

theorem abbrevFold_mem (lm : List (String × String)) (ws : List String)
    (s : List String) (x : String) (h : x ∈ s) :
    x ∈ ws.foldl (abbrevStep lm) s := by
  induction ws generalizing s with
  | nil => exact h
  | cons w ws ih => exact ih _ (abbrevStep_mem lm s w x h)

theorem abbrevFold_attains (lm : List (String × String)) (ws : List String)
    (s : List String) (w v : String) (hw : w ∈ ws)
    (hv : dictLookupS lm (pyLower w) = some v) :
    v ∈ ws.foldl (abbrevStep lm) s := by
  induction ws generalizing s with
  | nil => cases hw
  | cons a as ih =>
      rcases List.mem_cons.mp hw with h | h
      · subst h
        rw [List.foldl_cons]
        apply abbrevFold_mem
        unfold abbrevStep
        rw [hv]
        exact mem_setInsert_self _ _
      · rw [List.foldl_cons]
        exact ih _ h

theorem dictLookupS_of_nodup (l : List (String × String)) (k v : String)
    (hnd : (l.map (fun kv => kv.1)).Nodup) (hm : (k, v) ∈ l) :
    dictLookupS l k = some v := by
  induction l with
  | nil => cases hm
  | cons hd tl ih =>
      rw [List.map_cons, List.nodup_cons] at hnd
      unfold dictLookupS
      rw [List.reverse_cons, List.find?_append]
      rcases List.mem_cons.mp hm with h | h
      · subst h
        have hnone : tl.reverse.find? (fun kv => kv.1 == k) = none := by
          rw [List.find?_eq_none]
          intro x hx hpx
          apply hnd.1
          have hx1 : x.1 = k := by simpa using hpx
          have hmem : x.1 ∈ List.map (fun kv => kv.1) tl :=
            List.mem_map_of_mem (fun kv => kv.1) (List.mem_reverse.mp hx)
          rw [hx1] at hmem
          exact hmem
        rw [hnone]
        simp
      · have hthis := ih hnd.2 h
        unfold dictLookupS at hthis
        rcases ho : tl.reverse.find? (fun kv => kv.1 == k) with _ | kv2
        · rw [ho] at hthis
          simp at hthis
        · rw [ho] at hthis ⊢
          simp only [Option.or_some]
          exact hthis

/-- Claim C5: sentinel on empty extraction — when the recognizer reports no
geo-political entity for the text and no whitespace token of the text
matches the (lowercased) abbreviation table, `extract_locations` returns
exactly the single-element list containing "no location found". -/
theorem extract_sentinel (nlp : String → List Entity) (text : String)
    (m : List (String × String))
    (hner : ∀ e ∈ nlp text, e.label ≠ "GPE")
    (habbr : ∀ w ∈ pyWords text, dictLookupS (lowerAbbrev m) (pyLower w) = none) :
    extract_locations nlp text m = ["no location found"] := by
  unfold extract_locations
  have hfil : (nlp text).filter (fun e => e.label == "GPE") = [] := by
    rw [List.filter_eq_nil_iff]
    intro e he
    simpa using hner e he
  rw [hfil]
  simp only [List.map_nil, List.foldl_nil]
  rw [abbrevFold_no_match _ _ _ habbr]
  rfl

/-- Witness for C5: on a recognizer that finds nothing and a text with no
abbreviation tokens, the extractor returns the sentinel singleton. -/
theorem extract_sentinel_witness :
    extract_locations emptyNlp "just feeling low today" abbreviation_mapping
      = ["no location found"] :=
  extract_sentinel emptyNlp "just feeling low today" abbreviation_mapping
    (by intro e he; simp [emptyNlp] at he) (by decide)

/-- Claim C6: case-insensitive abbreviation expansion — for any abbreviation
table whose lowercased keys are distinct (a case-insensitive mapping), if the
text has a whitespace token equal, ignoring case, to a key of the table, then
the extraction result contains that key's canonical expansion. -/
theorem extract_abbreviation (nlp : String → List Entity) (text : String)
    (m : List (String × String)) (w k v : String)
    (hnd : (m.map (fun kv => pyLower kv.1)).Nodup)
    (hkv : (k, v) ∈ m)
    (hw : w ∈ pyWords text)
    (hcase : pyLower w = pyLower k) :
    v ∈ extract_locations nlp text m := by
  have hlook : dictLookupS (lowerAbbrev m) (pyLower w) = some v := by
    rw [hcase]
    apply dictLookupS_of_nodup
    · simpa [lowerAbbrev, List.map_map, Function.comp] using hnd
    · exact List.mem_map_of_mem (fun kv => (pyLower kv.1, kv.2)) hkv
  simp only [extract_locations]
  have hv : v ∈ (pyWords text).foldl
      (abbrevStep (lowerAbbrev m))
      ((((nlp text).filter (fun e => e.label == "GPE")).map (fun e => e.text)).foldl
        setInsert []) :=
    abbrevFold_attains _ _ _ w v hw hlook
  split
  · rename_i hemp
    rw [List.isEmpty_iff] at hemp
    rw [hemp] at hv
    cases hv
  · exact hv

/-- Witness for C6: the token "nyc" (lower case) in a text makes the result
contain "New York City", with the recognizer finding nothing. -/
theorem extract_abbreviation_witness :
    "New York City" ∈ extract_locations emptyNlp "so alone in nyc tonight"
      abbreviation_mapping :=
  extract_abbreviation emptyNlp "so alone in nyc tonight" abbreviation_mapping
    "nyc" "NYC" "New York City" (by decide) (by decide) (by decide) (by decide)

theorem counterAdd_mem (acc : List (String × Nat)) (x : String) (k : String)
    (c : Nat) (h : (k, c) ∈ counterAdd acc x) :
    (∃ c0, (k, c0) ∈ acc) ∨ k = x := by
  induction acc with
  | nil =>
      simp [counterAdd] at h
      right
      exact h.1
  | cons kv rest ih =>
      unfold counterAdd at h
      split at h
      · rcases List.mem_cons.mp h with h1 | h1
        · left
          refine ⟨kv.2, ?_⟩
          have : k = kv.1 := by
            have := congrArg Prod.fst h1
            simpa using this
          rw [this]
          simp
        · left
          exact ⟨c, List.mem_cons_of_mem _ h1⟩
      · rcases List.mem_cons.mp h with h1 | h1
        · left
          exact ⟨c, by rw [h1]; simp⟩
        · rcases ih h1 with ⟨c0, hc0⟩ | h2
          · left
            exact ⟨c0, List.mem_cons_of_mem _ hc0⟩
          · right
            exact h2

theorem counterFold_mem (xs : List String) (acc : List (String × Nat))
    (k : String) (c : Nat) (h : (k, c) ∈ xs.foldl counterAdd acc) :
    (∃ c0, (k, c0) ∈ acc) ∨ k ∈ xs := by
  induction xs generalizing acc with
  | nil => exact Or.inl ⟨c, h⟩
  | cons x xs ih =>
      rw [List.foldl_cons] at h
      rcases ih _ h with ⟨c0, hc0⟩ | hx
      · rcases counterAdd_mem acc x k c0 hc0 with h1 | h1
        · exact Or.inl h1
        · right
          simp [h1]
      · right
        simp [hx]

/-- Claim C7: stop-list invariant of the frequency mapping — for every
input, no key of `filter_locations`' result has its lowercase form in the
stop-list (in particular the sentinel "no location found" never appears as a
key), and the filter is exact match on the lowercased string: a key merely
containing a stop-word as a substring ("Methville" contains "meth") survives
with its full count. -/
theorem filter_stoplist_invariant :
    (∀ (all_locations : List (List String)) (k : String) (c : Nat),
        (k, c) ∈ filter_locations all_locations → pyLower k ∉ unwanted_words) ∧
    (∀ (all_locations : List (List String)) (c : Nat),
        ("no location found", c) ∉ filter_locations all_locations) ∧
    counterGet (filter_locations [["Methville", "meth"]]) "Methville" = 1 ∧
    counterGet (filter_locations [["Methville", "meth"]]) "meth" = 0 := by
  have main : ∀ (all_locations : List (List String)) (k : String) (c : Nat),
      (k, c) ∈ filter_locations all_locations → pyLower k ∉ unwanted_words := by
    intro alls k c h
    unfold filter_locations counterOf at h
    rcases counterFold_mem _ _ _ _ h with ⟨c0, hc0⟩ | hk
    · cases hc0
    · have := (List.mem_filter.mp hk).2
      simpa using this
  refine ⟨main, ?_, by decide, by decide⟩
  intro alls c hmem
  exact main alls "no location found" c hmem (by decide)

/-- Witness for C7: "Texas" is a key of a concrete frequency mapping, and the
theorem yields that its lowercase form is not stop-listed. -/
theorem filter_stoplist_invariant_witness :
    pyLower "Texas" ∉ unwanted_words :=
  filter_stoplist_invariant.1 [["Texas"]] "Texas" 1 (by decide)

theorem setInsert_nodup (s : List String) (x : String) (h : s.Nodup) :
    (setInsert s x).Nodup := by
  unfold setInsert
  split
  · exact h
  · rename_i hx
    rw [List.nodup_append]
    exact ⟨h, List.nodup_singleton x, by simpa [List.disjoint_singleton] using hx⟩

theorem setInsertFold_nodup (xs : List String) (s : List String) (h : s.Nodup) :
    (xs.foldl setInsert s).Nodup := by
  induction xs generalizing s with
  | nil => exact h
  | cons x xs ih => exact ih _ (setInsert_nodup s x h)

theorem abbrevStep_nodup (lm : List (String × String)) (s : List String)
    (w : String) (h : s.Nodup) : (abbrevStep lm s w).Nodup := by
  unfold abbrevStep
  split
  · exact setInsert_nodup _ _ h
  · exact h

theorem abbrevFold_nodup (lm : List (String × String)) (ws : List String)
    (s : List String) (h : s.Nodup) : (ws.foldl (abbrevStep lm) s).Nodup := by
  induction ws generalizing s with
  | nil => exact h
  | cons w ws ih => exact ih _ (abbrevStep_nodup lm s w h)

theorem extract_locations_nodup (nlp : String → List Entity) (text : String)
    (m : List (String × String)) : (extract_locations nlp text m).Nodup := by
  simp only [extract_locations]
  split
  · exact List.nodup_singleton _
  · exact abbrevFold_nodup _ _ _ (setInsertFold_nodup _ _ List.nodup_nil)

/-- Claim C4 as frozen is false on the code: for the concrete text
"alone in NYC", the recognizer reports the geo-political entity
"New York City" AND the token "NYC" expands to "New York City" through the
abbreviation table, yet the name contributes only ONE occurrence to the
frequency count, not two — the extraction container is a set. -/
theorem extract_double_count_counterexample :
    "New York City" ∈
      (((exNlp exText).filter (fun e => e.label == "GPE")).map (fun e => e.text)) ∧
    "NYC" ∈ pyWords exText ∧
    dictLookupS (lowerAbbrev abbreviation_mapping) (pyLower "NYC")
      = some "New York City" ∧
    ¬ counterGet (filter_locations [extract_locations exNlp exText abbreviation_mapping])
        "New York City" = 2 := by
  refine ⟨by decide, by decide, by decide, by decide⟩

/-- Claim C4 (amended): a canonical place name obtained both from the
named-entity pass and from an abbreviation-table match in the SAME post
contributes exactly one occurrence per post — the per-post container is a
set, so `extract_locations` always returns a duplicate-free list — while
occurrences from distinct posts are preserved by the flattening (the same
name in two posts counts twice). -/
theorem extract_no_double_count :
    (∀ (nlp : String → List Entity) (text : String) (m : List (String × String)),
        (extract_locations nlp text m).Nodup) ∧
    extract_locations exNlp exText abbreviation_mapping = ["New York City"] ∧
    counterGet (filter_locations [extract_locations exNlp exText abbreviation_mapping])
        "New York City" = 1 ∧
    counterGet (filter_locations [extract_locations exNlp exText abbreviation_mapping,
        extract_locations exNlp exText abbreviation_mapping]) "New York City" = 2 := by
  exact ⟨extract_locations_nodup, by decide, by decide, by decide⟩

theorem get_coordinates_error_all (g : Nat → GeoResult) (loc : String)
    (st : GeoState) (hg : ∀ n, g n = GeoResult.error)
    (hc : cacheLookup st.cache loc = none) :
    get_coordinates g loc st = (none, ⟨st.cache, st.calls + 1, st.slept⟩) := by
  unfold get_coordinates
  rw [hc]
  simp only [geocodeAttempts, hg]

theorem glcStep_error (acc : List (Rat × Rat × Nat)) (st : GeoState)
    (lc : String × Nat) (hcache : st.cache = []) :
    glcStep (fun _ => GeoResult.error) (acc, st) lc
      = (acc, ⟨st.cache, st.calls + 1, st.slept + 2⟩) := by
  have hgc : get_coordinates (fun _ => GeoResult.error) lc.1 st
      = (none, ⟨st.cache, st.calls + 1, st.slept⟩) := by
    apply get_coordinates_error_all _ _ _ (fun _ => rfl)
    rw [hcache]
    rfl
  simp only [glcStep]
  rw [hgc]

theorem glc_error_no_points (counts : List (String × Nat))
    (acc : List (Rat × Rat × Nat)) (st : GeoState) (hcache : st.cache = []) :
    (counts.foldl (glcStep (fun _ => GeoResult.error)) (acc, st)).1 = acc := by
  induction counts generalizing st with
  | nil => rfl
  | cons lc rest ih =>
      rw [List.foldl_cons, glcStep_error acc st lc hcache]
      exact ih ⟨st.cache, st.calls + 1, st.slept + 2⟩ hcache

theorem glc_foldl_eq_aggregateSpec (geocode : Nat → GeoResult)
    (counts : List (String × Nat)) :
    ∀ (acc : List (Rat × Rat × Nat)) (st : GeoState),
      (counts.foldl (glcStep geocode) (acc, st)).1
        = acc ++ aggregateSpec geocode st counts := by
  induction counts with
  | nil =>
      intro acc st
      simp [aggregateSpec]
  | cons lc rest ih =>
      intro acc st
      rw [List.foldl_cons]
      rcases hr : get_coordinates geocode lc.1 st with ⟨res, st1⟩
      cases res with
      | some coords =>
          have hstep : glcStep geocode (acc, st) lc
              = (acc ++ [(coords.1, coords.2, lc.2)],
                 ⟨st1.cache, st1.calls, st1.slept + 2⟩) := by
            simp only [glcStep, hr]
          have hspec : aggregateSpec geocode st (lc :: rest)
              = (coords.1, coords.2, lc.2)
                  :: aggregateSpec geocode ⟨st1.cache, st1.calls, st1.slept + 2⟩ rest := by
            simp only [aggregateSpec, hr]
          rw [hstep, hspec,
            ih (acc ++ [(coords.1, coords.2, lc.2)]) ⟨st1.cache, st1.calls, st1.slept + 2⟩]
          simp
      | none =>
          have hstep : glcStep geocode (acc, st) lc
              = (acc, ⟨st1.cache, st1.calls, st1.slept + 2⟩) := by
            simp only [glcStep, hr]
          have hspec : aggregateSpec geocode st (lc :: rest)
              = aggregateSpec geocode ⟨st1.cache, st1.calls, st1.slept + 2⟩ rest := by
            simp only [aggregateSpec, hr]
          rw [hstep, hspec]
          exact ih acc ⟨st1.cache, st1.calls, st1.slept + 2⟩

/-- Claim C8: for EVERY frequency mapping and EVERY geocoding collaborator,
the aggregator's output is exactly the sequence prescribed by the spec's
§4.4 contract (`aggregateSpec`): one `(lat, lon, count)` triple per
successfully resolved `(name, count)` pair, in frequency order, and no point
for a pair resolving to `none` (it is a total function, so no error is
raised).  In particular, for frequency `[("Texas", 5)]` and a collaborator
returning `(31, -100)`, the output is exactly `[(31, -100, 5)]`, and with a
collaborator on which every lookup fails the output is empty for every
mapping. -/
theorem aggregator_points :
    (∀ (geocode : Nat → GeoResult) (counts : List (String × Nat)),
        (get_location_coordinates geocode counts).1
          = aggregateSpec geocode ⟨[], 0, 0⟩ counts) ∧
    (get_location_coordinates (fun _ => GeoResult.found 31 (-100)) [("Texas", 5)]).1
      = [(31, -100, 5)] ∧
    ∀ counts : List (String × Nat),
      (get_location_coordinates (fun _ => GeoResult.error) counts).1 = [] := by
  refine ⟨?_, by decide, ?_⟩
  · intro geocode counts
    unfold get_location_coordinates
    rw [glc_foldl_eq_aggregateSpec geocode counts [] ⟨[], 0, 0⟩]
    rfl
  · intro counts
    unfold get_location_coordinates
    exact glc_error_no_points counts [] ⟨[], 0, 0⟩ rfl

theorem dictGet_dictSet_self (p : Post) (k : String) (v : PVal) :
    dictGet (dictSet p k v) k = some v := by
  induction p with
  | nil => simp [dictSet, dictGet, List.find?]
  | cons kv rest ih =>
      by_cases h : kv.1 == k
      · simp [dictSet, h, dictGet, List.find?]
      · simpa [dictSet, h, dictGet, List.find?] using ih

theorem dictGet_dictSet_ne (p : Post) (k k2 : String) (v : PVal) (h : k2 ≠ k) :
    dictGet (dictSet p k v) k2 = dictGet p k2 := by
  have hkk2 : (k == k2) = false := by
    rw [beq_eq_false_iff_ne]
    exact fun he => h he.symm
  induction p with
  | nil => simp [dictSet, dictGet, List.find?, hkk2]
  | cons kv rest ih =>
      by_cases hh : kv.1 == k
      · have hk : kv.1 = k := by simpa using hh
        simp [dictSet, hh, dictGet, List.find?, hk, hkk2]
      · by_cases h2 : kv.1 == k2
        · simp [dictSet, hh, dictGet, List.find?, h2]
        · simpa [dictSet, hh, dictGet, List.find?, h2] using ih

theorem process_one_spec (nlp : String → List Entity) (post p2 : Post)
    (locs : List String) (h : process_one nlp post = some (p2, locs)) :
    ∃ text : String,
      dictGet post "content" = some (PVal.str text) ∧
      locs = extract_locations nlp text abbreviation_mapping ∧
      p2 = dictSet post "location" (PVal.strList locs) := by
  unfold process_one at h
  cases hcon : dictGet post "content" with
  | none => rw [hcon] at h; cases h
  | some pv =>
      rw [hcon] at h
      cases pv with
      | str text =>
          rw [Option.some_inj, Prod.mk.injEq] at h
          exact ⟨text, rfl, h.2.symm, by rw [← h.1, ← h.2]⟩
      | strList l => cases h
      | int n => cases h

/-- Claim C10: frame property of `process_posts` — for every input post
record the processed record carries the `location` field holding the
extracted location list of the post's `content` text, and every OTHER field
of the post reads exactly as before. -/
theorem process_posts_frame (nlp : String → List Entity) :
    ∀ (posts posts2 : List Post) (alls : List (List String)),
      process_posts nlp posts = some (posts2, alls) →
      posts2.length = posts.length ∧
      ∀ (i : Nat) (hi : i < posts.length) (hi2 : i < posts2.length),
        (∀ k2 : String, k2 ≠ "location" →
            dictGet (posts2.get ⟨i, hi2⟩) k2 = dictGet (posts.get ⟨i, hi⟩) k2) ∧
        ∃ text : String,
          dictGet (posts.get ⟨i, hi⟩) "content" = some (PVal.str text) ∧
          dictGet (posts2.get ⟨i, hi2⟩) "location"
            = some (PVal.strList (extract_locations nlp text abbreviation_mapping)) := by
  intro posts
  induction posts with
  | nil =>
      intro posts2 alls h
      unfold process_posts at h
      rw [Option.some_inj, Prod.mk.injEq] at h
      refine ⟨by rw [← h.1], ?_⟩
      intro i hi hi2
      exact absurd hi (by simp)
  | cons post rest ih =>
      intro posts2 alls h
      unfold process_posts at h
      cases hp : process_one nlp post with
      | none => rw [hp] at h; cases h
      | some pr =>
          obtain ⟨p2, locs⟩ := pr
          rw [hp] at h
          cases hr : process_posts nlp rest with
          | none => rw [hr] at h; cases h
          | some psls =>
              obtain ⟨ps, ls⟩ := psls
              rw [hr] at h
              rw [Option.some_inj, Prod.mk.injEq] at h
              obtain ⟨h1, _⟩ := h
              subst h1
              obtain ⟨hlen, hrest⟩ := ih ps ls hr
              refine ⟨by simpa using hlen, ?_⟩
              intro i hi hi2
              obtain ⟨text, hcon, hlocs, hp2⟩ := process_one_spec nlp post p2 locs hp
              cases i with
              | zero =>
                  constructor
                  · intro k2 hk2
                    show dictGet p2 k2 = dictGet post k2
                    rw [hp2]
                    exact dictGet_dictSet_ne post "location" k2 _ hk2
                  · refine ⟨text, hcon, ?_⟩
                    show dictGet p2 "location" = _
                    rw [hp2, dictGet_dictSet_self, hlocs]
              | succ n =>
                  exact hrest n (by simpa using hi) (by simpa using hi2)

/-- Witness for C10: a concrete one-post run preserves the `id` field and
the list length. -/
theorem process_posts_frame_witness :
    dictGet exPost2 "id" = dictGet exPost "id" ∧
    ([exPost2] : List Post).length = ([exPost] : List Post).length := by
  have h := process_posts_frame emptyNlp [exPost] [exPost2] [["no location found"]]
    (by decide)
  exact ⟨(h.2 0 (by decide) (by decide)).1 "id" (by decide), h.1⟩
